import Mathlib

/-!
Verification of the natural-language specification of qabel-block's
`src/blockserver/server.py` against a shallow embedding of that file.

Modelling choices:
* Bytes are natural numbers; byte strings are `List Nat`.
* The tornado `AsyncHTTPClient.fetch(..., raise_error=False)` call of
  `check_auth` is abstracted as a total function from the outbound request to
  a response status code: with `raise_error=False` the fetch resolves to a
  response object even when the connection fails (such a failure surfaces as
  the synthetic status 599), so the embedded `check_auth` is a total boolean
  function and cannot raise.
* The per-request `FileHandler` object is a state machine driven by the
  lifecycle events tornado delivers to a `@stream_request_body` handler;
  the storage backend (`blockserver.backends.dummy/s3`, whose sources are not
  part of `server.py`) is an abstract `store/retrieve/delete` contract in
  which `Except.error` models the call raising.
* The handler's route regular expression `[\d\w-]+` is modelled over the
  ASCII range, where it denotes exactly the letters, digits, underscore and
  hyphen.
-/

namespace Blockserver

/-- Bytes of a request or file body, as natural numbers. -/
abbrev Byte := Nat

/-- The tornado options of `server.py` that the authentication path reads:
`noauth`, `dummy_auth`, `magicauth` and `accountingserver`. -/
structure Options where
  noauth : Bool
  dummy_auth : Bool
  magicauth : String
  accountingserver : String
  deriving DecidableEq

/-- The outbound HTTP request that `check_auth` hands to
`AsyncHTTPClient.fetch` (`server.py` lines 33-38).  `authorization` is the
value of the forwarded `Authorization` header; `none` means the incoming
request carried no such header (Python `None`).  `body` is `some []` for the
empty byte string and `none` for "no body". -/
structure AuthRequest where
  url : String
  method : String
  authorization : Option String
  body : Option (List Byte)
  deriving DecidableEq

/-- `server.py` lines 34-37: the request `check_auth` builds for the
accounting server: URL `accountingserver + '/api/v0/auth/' + prefix + '/' +
file_path`, HTTP method equal to the incoming verb `action`, the credential
forwarded unchanged, and body `b''` for POST, `None` otherwise.  (The
`prefix` parameter is called `pfx` here because `prefix` is reserved in
Lean.) -/
def mkAuthRequest (opts : Options) (auth : Option String)
    (pfx file_path action : String) : AuthRequest :=
  { url := opts.accountingserver ++ "/api/v0/auth/" ++ pfx ++ "/" ++ file_path
  , method := action
  , authorization := auth
  , body := if action = "POST" then some [] else none }

/-- `server.py` lines 42-43: the local static check `dummy_auth` compares the
credential against the `magicauth` token and the prefix against `'test'`;
`file_path` and `action` are ignored by the source as well. -/
def dummy_auth (opts : Options) (auth : Option String)
    (pfx file_path action : String) : Bool :=
  auth == some opts.magicauth && pfx == "test"

/-- `server.py` lines 28-39, `check_auth`: `noauth` short-circuits to `True`,
`dummy_auth` delegates to the static check, otherwise the accounting server
is consulted and the result is `response.code == 204`.  The HTTP client is
the parameter `fetch`; because the source passes `raise_error=False`, `fetch`
is total (network failure yields a status such as 599 instead of an
exception), hence `check_auth` always resolves to a boolean and never
raises. -/
def check_auth (opts : Options) (fetch : AuthRequest → Nat)
    (auth : Option String) (pfx file_path action : String) : Bool :=
  if opts.noauth then true
  else if opts.dummy_auth then dummy_auth opts auth pfx file_path action
  else fetch (mkAuthRequest opts auth pfx file_path action) == 204

/-- C1: with the remote strategy active (neither `noauth` nor `dummy_auth`),
`check_auth` resolves to true exactly when the accounting service's response
status is 204; every other status — including the synthetic status a network
failure produces under `raise_error=False` — resolves to false, and the check
is a total function (it never raises). -/
theorem check_auth_remote_iff (opts : Options) (fetch : AuthRequest → Nat)
    (auth : Option String) (pfx file_path action : String)
    (h1 : opts.noauth = false) (h2 : opts.dummy_auth = false) :
    check_auth opts fetch auth pfx file_path action = true ↔
      fetch (mkAuthRequest opts auth pfx file_path action) = 204 := by
  simp [check_auth, h1, h2]

/-- C1 witness: a concrete remote-strategy option set, one fetch answering
204 (authorized) and one answering 599 (network failure, not authorized). -/
theorem check_auth_remote_iff_witness :
    check_auth ⟨false, false, "Token MAGICFARYDUST", "http://localhost:8000"⟩
        (fun _ => 204) (some "Token t") "p" "f" "GET" = true ∧
    check_auth ⟨false, false, "Token MAGICFARYDUST", "http://localhost:8000"⟩
        (fun _ => 599) (some "Token t") "p" "f" "GET" = false := by
  constructor
  · exact (check_auth_remote_iff ⟨false, false, "Token MAGICFARYDUST",
      "http://localhost:8000"⟩ (fun _ => 204) (some "Token t") "p" "f" "GET"
      rfl rfl).mpr rfl
  · have h := (check_auth_remote_iff ⟨false, false, "Token MAGICFARYDUST",
      "http://localhost:8000"⟩ (fun _ => 599) (some "Token t") "p" "f" "GET"
      rfl rfl)
    simp at h
    simp [h]

/-! ### Routing

`make_app` (`server.py` 154-162) installs the single route
`^/api/v0/files/(?P<prefix>[\d\w-]+)/(?P<file_path>[\d\w-]+)` (tornado
anchors it with a final `$`).  We model the path as a `List Char`, split it
on `/` and demand exactly the six components of the pattern.  When no route
matches, a tornado `Application` answers with its default handler: HTTP 404,
without constructing `FileHandler`, so no auth or backend call happens. -/

/-- One character of the route character class `[\d\w-]` over the ASCII
range: a letter, a digit, an underscore or a hyphen (Python's `\w` also
admits non-ASCII word characters; the model covers the ASCII range). -/
def routeChar (c : Char) : Bool := c.isAlphanum || c == '_' || c == '-'

/-- A route segment: one or more `routeChar`s, as `[\d\w-]+` demands. -/
def segOK (l : List Char) : Bool := !l.isEmpty && l.all routeChar

/-- Split a character list on `/`; e.g. `/a/b` becomes `["", "a", "b"]`. -/
def splitSlash : List Char → List (List Char)
  | [] => [[]]
  | c :: rest =>
      if c = '/' then [] :: splitSlash rest
      else (splitSlash rest).modifyHead (c :: ·)

def apiSeg : List Char := ['a', 'p', 'i']

def v0Seg : List Char := ['v', '0']

def filesSeg : List Char := ['f', 'i', 'l', 'e', 's']

/-- The anchored route pattern of `make_app`: the path must consist of
exactly `/api/v0/files/` followed by two non-empty `[\d\w-]+` segments;
on a match the two capture groups `(prefix, file_path)` are returned. -/
def routeMatch (path : List Char) : Option (List Char × List Char) :=
  if (splitSlash path).length = 6 ∧ (splitSlash path).getD 0 [] = [] ∧
      (splitSlash path).getD 1 [] = apiSeg ∧ (splitSlash path).getD 2 [] = v0Seg ∧
      (splitSlash path).getD 3 [] = filesSeg ∧
      segOK ((splitSlash path).getD 4 []) = true ∧
      segOK ((splitSlash path).getD 5 []) = true
  then some ((splitSlash path).getD 4 [], (splitSlash path).getD 5 [])
  else none

/-- A request path of the route's shape, assembled from two segments. -/
def filesPath (p f : List Char) : List Char :=
  '/' :: (apiSeg ++ '/' :: (v0Seg ++ '/' :: (filesSeg ++ '/' :: (p ++ '/' :: f))))

theorem splitSlash_slash (l : List Char) :
    splitSlash ('/' :: l) = [] :: splitSlash l := by
  simp [splitSlash]

theorem splitSlash_append (p : List Char) (l : List Char) (hp : '/' ∉ p) :
    splitSlash (p ++ '/' :: l) = p :: splitSlash l := by
  induction p with
  | nil => simp [splitSlash_slash]
  | cons c p ih =>
      have hc : ¬ c = '/' := fun h => hp (h ▸ List.mem_cons_self c p)
      have hp' : '/' ∉ p := fun h => hp (List.mem_cons_of_mem c h)
      simp [splitSlash, hc, ih hp']

theorem splitSlash_noSlash (p : List Char) (hp : '/' ∉ p) :
    splitSlash p = [p] := by
  induction p with
  | nil => rfl
  | cons c p ih =>
      have hc : ¬ c = '/' := fun h => hp (h ▸ List.mem_cons_self c p)
      have hp' : '/' ∉ p := fun h => hp (List.mem_cons_of_mem c h)
      simp [splitSlash, hc, ih hp']

theorem length_splitSlash (l : List Char) :
    (splitSlash l).length = l.count '/' + 1 := by
  induction l with
  | nil => rfl
  | cons c l ih =>
      by_cases h : c = '/' <;>
        simp [splitSlash, h, ih, List.count_cons]

theorem splitSlash_filesPath (p f : List Char) (hp : '/' ∉ p) (hf : '/' ∉ f) :
    splitSlash (filesPath p f) = [[], apiSeg, v0Seg, filesSeg, p, f] := by
  rw [filesPath, splitSlash_slash, splitSlash_append _ _ (by decide),
    splitSlash_append _ _ (by decide), splitSlash_append _ _ (by decide),
    splitSlash_append _ _ hp, splitSlash_noSlash _ hf]

theorem count_filesPath (p f : List Char) :
    (filesPath p f).count '/' = 5 + (p.count '/' + f.count '/') := by
  simp [filesPath, List.count_append, List.count_cons, apiSeg, v0Seg, filesSeg]
  omega

/-- Soundness of the route pattern: a successful match only ever yields two
segments that satisfy `[\d\w-]+`. -/
theorem routeMatch_sound (path : List Char) (q g : List Char)
    (h : routeMatch path = some (q, g)) : segOK q = true ∧ segOK g = true := by
  unfold routeMatch at h
  split at h
  · rename_i hc
    obtain ⟨-, -, -, -, -, h4, h5⟩ := hc
    obtain ⟨rfl, rfl⟩ := Prod.mk.injEq .. ▸ Option.some.injEq .. ▸ h
    exact ⟨h4, h5⟩
  · exact absurd h (by simp)

/-- A path whose two segments do not both satisfy the pattern never
matches the route. -/
theorem routeMatch_filesPath_bad (p f : List Char)
    (hbad : (segOK p && segOK f) = false) :
    routeMatch (filesPath p f) = none := by
  by_cases hsl : '/' ∈ p ∨ '/' ∈ f
  · have hlen : (splitSlash (filesPath p f)).length ≠ 6 := by
      rw [length_splitSlash, count_filesPath]
      have : p.count '/' + f.count '/' ≠ 0 := by
        rcases hsl with h | h
        · have := List.count_eq_zero.not.mpr (by simpa using h)
          omega
        · have := List.count_eq_zero.not.mpr (by simpa using h)
          omega
      omega
    unfold routeMatch
    rw [if_neg]
    intro hc
    exact hlen hc.1
  · push_neg at hsl
    have hsplit := splitSlash_filesPath p f hsl.1 hsl.2
    unfold routeMatch
    rw [if_neg]
    intro hc
    obtain ⟨-, -, -, -, -, h4, h5⟩ := hc
    rw [hsplit] at h4 h5
    simp [List.getD] at h4 h5
    rw [h4, h5] at hbad
    simp at hbad

/-! ### The handler state machine

`FileHandler` (`server.py` 46-124) is a `@stream_request_body` handler.
Tornado delivers the lifecycle of one request in this order: `prepare` runs
(and, since it is a coroutine, tornado waits for it — including the awaited
auth callback — before reading the body), then `data_received` for each body
chunk, then the verb method `get`/`post`/`delete`, whose backend call runs on
the executor and settles before the method continues emitting the response;
a torn-down connection simply stops delivering events. -/

/-- `blockserver.backends.util.StorageObject` as the handler constructs it
(`server.py` 116, 120, 124): positional fields
`(prefix, file_path, etag, local_file)`.  The first field is named `pfx`
because `prefix` is reserved in Lean. -/
structure StorageObject where
  pfx : String
  file_path : String
  etag : Option String
  local_file : Option String
  deriving DecidableEq

/-- Modelled from the spec: the receipt a backend `store`/`retrieve` returns
(the backend modules `blockserver.backends.dummy/s3` are outside
`server.py`); per the spec's data model it carries the `etag` and an optional
local payload reference, `local_file = none` signalling "content unchanged,
do not re-stream". -/
structure Receipt where
  etag : String
  local_file : Option String
  deriving DecidableEq

/-- The transient upload file `tempfile.NamedTemporaryFile(delete=False)`
(`server.py` 76): its name, the bytes written so far, and whether the Python
file object has been closed.  Because of `delete=False`, closing it does not
remove it from disk. -/
structure TempFile where
  name : String
  content : List Byte
  closed : Bool
  deriving DecidableEq

/-- One backend `Transfer` invocation (`server.py` 114-124). -/
inductive BackendCall where
  | retrieveCall (obj : StorageObject)
  | storeCall (obj : StorageObject)
  | deleteCall (obj : StorageObject)
  deriving DecidableEq

/-- The environment of one request: the backend `Transfer` contract
(`store`/`retrieve`/`delete`, where `Except.error` models the call raising),
the local filesystem (`readFile` yields the bytes of a named local file) and
the name `tempfile` will hand out for the transient upload file. -/
structure Backend where
  store : StorageObject → Except Unit Receipt
  retrieve : StorageObject → Except Unit (Option Receipt)
  delete : StorageObject → Except Unit Unit
  readFile : String → List Byte
  tempName : String

/-- One routed incoming request as `FileHandler` sees it: the HTTP method,
the two captured path segments, the optional `Authorization` header and the
optional `If-None-Match` header. -/
structure Request where
  method : String
  pfx : String
  file_path : String
  authorization : Option String
  ifNoneMatch : Option String
  deriving DecidableEq

/-- The outgoing response.  `status = none` means no status was set yet
(tornado defaults to 200 when the response is finished), `etagHeader` is the
`ETag` header, `body` the payload bytes written with `self.write`, and
`finished` whether `finish()` or `send_error` completed the response. -/
structure Response where
  status : Option Nat
  etagHeader : Option String
  body : List Byte
  finished : Bool
  deriving DecidableEq

/-- A response nothing has been emitted into. -/
def pristineResp : Response := ⟨none, none, [], false⟩

/-- `RequestHandler.send_error(n)`: clear the response, set the status and
finish it.  Once a response is finished a later `send_error` can no longer
alter it (tornado logs "Cannot send error response after headers written"
and returns).  The bare `self.send_error()` of `data_received` uses
tornado's default code 500. -/
def sendError (r : Response) (n : Nat) : Response :=
  if r.finished then r else ⟨some n, none, [], true⟩

/-- Elementary response-emission actions of the handler methods. -/
inductive RespAction where
  | setStatus (n : Nat)
  | setETag (v : String)
  | write (chunk : List Byte)
  | finishResp
  deriving DecidableEq

def applyAction (r : Response) : RespAction → Response
  | .setStatus n => { r with status := some n }
  | .setETag v => { r with etagHeader := some v }
  | .write c => { r with body := r.body ++ c }
  | .finishResp => { r with status := some (r.status.getD 200), finished := true }

def applyActions (r : Response) (l : List RespAction) : Response :=
  l.foldl applyAction r

/-- `iter(lambda: f_in.read(8192), b'')` (`server.py` 96): the byte content
of the local file cut into successive chunks of 8192 bytes, the last one
shorter. -/
def chunksOf8192 (l : List Byte) : List (List Byte) :=
  if h : l = [] then []
  else l.take 8192 :: chunksOf8192 (l.drop 8192)
termination_by l.length
decreasing_by
  have := List.length_pos.mpr h
  simp [List.length_drop]
  omega

theorem chunksOf8192_flatten (l : List Byte) : (chunksOf8192 l).flatten = l := by
  by_cases h : l = []
  · subst h
    rw [chunksOf8192]
    simp
  · rw [chunksOf8192, dif_neg h, List.flatten_cons,
      chunksOf8192_flatten (l.drop 8192), List.take_append_drop]
termination_by l.length
decreasing_by
  have := List.length_pos.mpr h
  simp [List.length_drop]
  omega

/-- `server.py` 91-98: the emission sequence of `get` for a retrieve result
that is present — `ETag` header first, then either `set_status(304)` when
there is no local file or the file's bytes streamed chunk by chunk, then
`finish()`. -/
def get_actions (r : Receipt) (readFile : String → List Byte) : List RespAction :=
  [.setETag r.etag] ++
    (match r.local_file with
     | none => [.setStatus 304]
     | some fn => (chunksOf8192 (readFile fn)).map .write) ++
    [.finishResp]

/-- The lifecycle events tornado delivers to one `FileHandler` instance. -/
inductive Event where
  | prepareStart
  | authResolved
  | dataReceived (chunk : List Byte)
  | bodyComplete
  | backendDone
  | connClosed
  deriving DecidableEq

/-- The per-request handler state.  `auth` is the tri-state `self.auth`
(`none` = Python `None`, authorization pending), `temp` the
`NamedTemporaryFile` object, `tempOnDisk` whether that transient file
currently exists on disk, `pending` a backend call that was issued but has
not settled, `calls` the log of settled backend invocations, `authLog` the
log of auth-callback invocations `(header, prefix, path, verb)`, and
`crashed` records an uncaught `AttributeError` from touching `self.temp`
when it was never created. -/
structure HandlerState where
  auth : Option Bool
  temp : Option TempFile
  tempOnDisk : Bool
  resp : Response
  pending : Option BackendCall
  calls : List BackendCall
  authLog : List (Option String × String × String × String)
  crashed : Bool
  deriving DecidableEq

def initState : HandlerState :=
  ⟨none, none, false, pristineResp, none, [], [], false⟩

/-- The injected `auth_callback`: `(auth_header, prefix, file_path, method)
→ authorized?`. -/
abbrev AuthCallback := Option String → String → String → String → Bool

/-- One lifecycle step of `FileHandler` (`server.py` 59-124).

* `prepareStart`: lines 60-61, `self.auth = None`, no temp file yet.  (The
  `KeyError → send_error(403)` branch of lines 62-67 is unreachable under
  `make_app`'s route, which always supplies both kwargs.)
* `authResolved`: lines 68-76 — the awaited `auth_callback` returns; on a
  non-true result `self.auth = False` and `send_error(403)`, otherwise
  `self.auth = True` and, for POST only, the transient file is created.
* `dataReceived`: lines 78-82 — while `self.auth` is not `True` a bare
  `send_error()` rejects the chunk and returns without touching `self.temp`;
  otherwise the chunk is appended to the temp file.
* `bodyComplete`: the verb method starts (tornado skips it when `prepare`
  already finished the response); `get` records the retrieve call with the
  `If-None-Match` value as etag (86-87), `post` first closes the temp file
  and hands its name to the store call (102-103), `delete` hands an object
  with etag and local file both `None` (110, 116); an unsupported method
  gets tornado's 405.
* `backendDone`: the executor call settles; `get` then emits 404 / 304-with-
  ETag / the streamed file (88-98), `post` emits 204 with the receipt's ETag
  (104-106) — the backend having taken over the staged file per the spec —
  and `delete` emits a bare 204 (111-112); a raising call becomes tornado's
  `send_error(500)`.
* `connClosed`: `FileHandler` defines no `on_connection_close`/`on_finish`
  cleanup, so nothing happens. -/
def step (authz : AuthCallback) (env : Backend) (req : Request)
    (s : HandlerState) : Event → HandlerState
  | .prepareStart => { s with auth := none, temp := none }
  | .authResolved =>
      let ok := authz req.authorization req.pfx req.file_path req.method
      let s1 := { s with authLog :=
        s.authLog ++ [(req.authorization, req.pfx, req.file_path, req.method)] }
      if !ok then
        { s1 with auth := some false, resp := sendError s1.resp 403 }
      else
        let s2 := { s1 with auth := some true }
        if req.method = "POST" then
          { s2 with temp := some ⟨env.tempName, [], false⟩, tempOnDisk := true }
        else s2
  | .dataReceived chunk =>
      if s.auth ≠ some true then { s with resp := sendError s.resp 500 }
      else
        match s.temp with
        | some t => { s with temp := some ⟨t.name, t.content ++ chunk, t.closed⟩ }
        | none => { s with crashed := true }
  | .bodyComplete =>
      if s.resp.finished then s
      else if req.method = "GET" then
        { s with pending := some (.retrieveCall
            ⟨req.pfx, req.file_path, req.ifNoneMatch, none⟩) }
      else if req.method = "POST" then
        match s.temp with
        | some t =>
            { s with temp := some ⟨t.name, t.content, true⟩,
                     pending := some (.storeCall
                       ⟨req.pfx, req.file_path, none, some t.name⟩) }
        | none => { s with crashed := true }
      else if req.method = "DELETE" then
        { s with pending := some (.deleteCall ⟨req.pfx, req.file_path, none, none⟩) }
      else { s with resp := sendError s.resp 405 }
  | .backendDone =>
      match s.pending with
      | none => s
      | some c =>
        let s1 := { s with pending := none, calls := s.calls ++ [c] }
        match c with
        | .retrieveCall obj =>
            match env.retrieve obj with
            | .error _ => { s1 with resp := sendError s1.resp 500 }
            | .ok none => { s1 with resp := sendError s1.resp 404 }
            | .ok (some r) =>
                { s1 with resp := applyActions s1.resp (get_actions r env.readFile) }
        | .storeCall obj =>
            match env.store obj with
            | .error _ => { s1 with resp := sendError s1.resp 500 }
            | .ok r =>
                { s1 with tempOnDisk := false,
                          resp := applyActions s1.resp
                            [.setStatus 204, .setETag r.etag, .finishResp] }
        | .deleteCall obj =>
            match env.delete obj with
            | .error _ => { s1 with resp := sendError s1.resp 500 }
            | .ok _ =>
                { s1 with resp := applyActions s1.resp [.setStatus 204, .finishResp] }
  | .connClosed => s

def run (authz : AuthCallback) (env : Backend) (req : Request)
    (es : List Event) : HandlerState :=
  es.foldl (step authz env req) initState

/-- The canonical event order tornado produces for one request: `prepare`
runs and its awaited auth callback resolves before the body is read, then
the body chunks arrive, then either the connection is torn down early or the
body completes, the verb method issues its backend call and that call
settles. -/
def requestEvents (chunks : List (List Byte)) (closedEarly : Bool) : List Event :=
  [.prepareStart, .authResolved] ++ chunks.map .dataReceived ++
    (if closedEarly then [.connClosed] else [.bodyComplete, .backendDone])

def runRequest (authz : AuthCallback) (env : Backend) (req : Request)
    (chunks : List (List Byte)) (closedEarly : Bool) : HandlerState :=
  run authz env req (requestEvents chunks closedEarly)

/-- The state reached after body completion, with the verb method's backend
call issued but not yet settled. -/
def runMid (authz : AuthCallback) (env : Backend) (req : Request)
    (chunks : List (List Byte)) : HandlerState :=
  run authz env req
    ([.prepareStart, .authResolved] ++ chunks.map .dataReceived ++ [.bodyComplete])

/-- Tornado `Application` dispatch over `make_app`'s route table: a path the
route matches is handled by `FileHandler` on the captured segments; any
other path falls to tornado's default handler, HTTP 404, with the handler —
and hence any auth or backend call — never invoked. -/
def dispatch (authz : AuthCallback) (env : Backend) (method : String)
    (urlPath : List Char) (authHdr inm : Option String)
    (chunks : List (List Byte)) : HandlerState :=
  match routeMatch urlPath with
  | none => { initState with resp := ⟨some 404, none, [], true⟩ }
  | some (p, f) =>
      runRequest authz env ⟨method, String.mk p, String.mk f, authHdr, inm⟩
        chunks false

/-! ### Elementary lemmas about the machine -/

theorem sendError_finished (r : Response) (n : Nat) (h : r.finished = true) :
    sendError r n = r := by
  simp [sendError, h]

theorem applyActions_writes (r : Response) (cs : List (List Byte)) :
    applyActions r (cs.map .write) = { r with body := r.body ++ cs.flatten } := by
  induction cs generalizing r with
  | nil => simp [applyActions]
  | cons c cs ih =>
      simp only [List.map_cons, applyActions, List.foldl_cons, applyAction]
      rw [show (List.foldl applyAction { r with body := r.body ++ c }
        (cs.map .write)) = applyActions { r with body := r.body ++ c }
        (cs.map .write) from rfl, ih]
      simp

/-- Chunks arriving after a 403 rejection (`self.auth == False`, response
already finished) change nothing at all. -/
theorem foldl_chunks_rejected (authz : AuthCallback) (env : Backend)
    (req : Request) (cs : List (List Byte)) (s : HandlerState)
    (ha : s.auth = some false) (hf : s.resp.finished = true) :
    List.foldl (step authz env req) s (cs.map .dataReceived) = s := by
  induction cs with
  | nil => rfl
  | cons c cs ih =>
      have hcond : s.auth ≠ some true := by rw [ha]; simp
      have h1 : step authz env req s (.dataReceived c) = s := by
        simp only [step, if_pos hcond, sendError_finished _ _ hf]
      rw [List.map_cons, List.foldl_cons, h1]
      exact ih

/-- With authorization granted and a temp file open, each received chunk is
appended to the temp file and nothing else changes. -/
theorem foldl_chunks_write (authz : AuthCallback) (env : Backend)
    (req : Request) (cs : List (List Byte)) (s : HandlerState) (t : TempFile)
    (ha : s.auth = some true) (ht : s.temp = some t) :
    List.foldl (step authz env req) s (cs.map .dataReceived) =
      { s with temp := some ⟨t.name, t.content ++ cs.flatten, t.closed⟩ } := by
  induction cs generalizing s t with
  | nil =>
      show s = { s with temp := some ⟨t.name, t.content ++ [].flatten, t.closed⟩ }
      rw [show (⟨t.name, t.content ++ List.flatten [], t.closed⟩ : TempFile) = t by
        cases t; simp, ← ht]
  | cons c cs ih =>
      have hcond : ¬ s.auth ≠ some true := by rw [ha]; simp
      have h1 : step authz env req s (.dataReceived c) =
          { s with temp := some ⟨t.name, t.content ++ c, t.closed⟩ } := by
        simp only [step, if_neg hcond, ht]
      rw [List.map_cons, List.foldl_cons, h1,
        ih { s with temp := some ⟨t.name, t.content ++ c, t.closed⟩ }
          ⟨t.name, t.content ++ c, t.closed⟩ ha rfl]
      simp

/-- With authorization granted, body chunks touch only `temp` and `crashed`:
the response, the pending call, both logs, `auth` and `tempOnDisk` are
untouched. -/
theorem foldl_chunks_preserve (authz : AuthCallback) (env : Backend)
    (req : Request) (cs : List (List Byte)) (s : HandlerState)
    (ha : s.auth = some true) :
    (List.foldl (step authz env req) s (cs.map .dataReceived)).resp = s.resp ∧
    (List.foldl (step authz env req) s (cs.map .dataReceived)).pending = s.pending ∧
    (List.foldl (step authz env req) s (cs.map .dataReceived)).calls = s.calls ∧
    (List.foldl (step authz env req) s (cs.map .dataReceived)).authLog = s.authLog ∧
    (List.foldl (step authz env req) s (cs.map .dataReceived)).auth = s.auth ∧
    (List.foldl (step authz env req) s (cs.map .dataReceived)).tempOnDisk = s.tempOnDisk := by
  induction cs generalizing s with
  | nil => exact ⟨rfl, rfl, rfl, rfl, rfl, rfl⟩
  | cons c cs ih =>
      have hcond : ¬ s.auth ≠ some true := by rw [ha]; simp
      simp only [List.map_cons, List.foldl_cons]
      cases htmp : s.temp with
      | some t =>
          have h1 : step authz env req s (.dataReceived c) =
              { s with temp := some ⟨t.name, t.content ++ c, t.closed⟩ } := by
            simp only [step, if_neg hcond, htmp]
          rw [h1]
          exact ih { s with temp := some ⟨t.name, t.content ++ c, t.closed⟩ } ha
      | none =>
          have h1 : step authz env req s (.dataReceived c) =
              { s with crashed := true } := by
            simp only [step, if_neg hcond, htmp]
          rw [h1]
          exact ih { s with crashed := true } ha

/-- `prepare` resolving the auth callback to a non-true value: the handler
becomes `auth = False` with a finished 403 response and still no temp file
(`server.py` 69-72 returns before line 75). -/
theorem run_prep_auth_false (authz : AuthCallback) (env : Backend) (req : Request)
    (h : authz req.authorization req.pfx req.file_path req.method = false) :
    step authz env req (step authz env req initState .prepareStart) .authResolved =
      ⟨some false, none, false, ⟨some 403, none, [], true⟩, none, [],
        [(req.authorization, req.pfx, req.file_path, req.method)], false⟩ := by
  simp [step, h, initState, sendError, pristineResp]

/-- `prepare` resolving the auth callback to true: the handler becomes
`auth = True` and, exactly for POST, a fresh empty transient file is opened
(`server.py` 73-76). -/
theorem run_prep_auth_true (authz : AuthCallback) (env : Backend) (req : Request)
    (h : authz req.authorization req.pfx req.file_path req.method = true) :
    step authz env req (step authz env req initState .prepareStart) .authResolved =
      ⟨some true,
        (if req.method = "POST" then some ⟨env.tempName, [], false⟩ else none),
        (if req.method = "POST" then true else false),
        pristineResp, none, [],
        [(req.authorization, req.pfx, req.file_path, req.method)], false⟩ := by
  by_cases hm : req.method = "POST"
  · rw [hm] at h
    simp [step, initState, hm, h]
  · simp [step, h, hm, initState]

/-- Decomposition of the canonical run: the full request is the mid state
(backend call issued) followed by the settling of that call. -/
theorem runRequest_eq_mid (authz : AuthCallback) (env : Backend) (req : Request)
    (chunks : List (List Byte)) :
    runRequest authz env req chunks false =
      step authz env req (runMid authz env req chunks) .backendDone := by
  simp [runRequest, runMid, run, requestEvents, List.foldl_append]

/-- A request whose authorization resolves to a non-true value ends in the
403 state no matter which chunks arrive or how the request ends. -/
theorem rejected_run (authz : AuthCallback) (env : Backend) (req : Request)
    (chunks : List (List Byte)) (closedEarly : Bool)
    (hden : authz req.authorization req.pfx req.file_path req.method = false) :
    runRequest authz env req chunks closedEarly =
      ⟨some false, none, false, ⟨some 403, none, [], true⟩, none, [],
        [(req.authorization, req.pfx, req.file_path, req.method)], false⟩ := by
  unfold runRequest run requestEvents
  rw [List.foldl_append, List.foldl_append]
  rw [show List.foldl (step authz env req) initState [.prepareStart, .authResolved] =
    step authz env req (step authz env req initState .prepareStart) .authResolved
    from rfl, run_prep_auth_false authz env req hden]
  rw [foldl_chunks_rejected authz env req chunks _ rfl rfl]
  cases closedEarly <;> simp [step]

/-- Only the resolution of the auth callback ever appends to the auth-call
log; every other event leaves it unchanged. -/
theorem step_authLog_other (authz : AuthCallback) (env : Backend) (req : Request)
    (s : HandlerState) (e : Event) (he : e ≠ Event.authResolved) :
    (step authz env req s e).authLog = s.authLog := by
  cases e with
  | prepareStart => rfl
  | authResolved => exact absurd rfl he
  | connClosed => rfl
  | dataReceived c =>
      simp only [step]
      split
      · rfl
      · split <;> rfl
  | bodyComplete =>
      simp only [step]
      split
      · rfl
      · split
        · rfl
        · split
          · split <;> rfl
          · split <;> rfl
  | backendDone =>
      simp only [step]
      split
      · rfl
      · split <;> split <;> rfl

/-- `authResolved` appends exactly one entry, carrying the header, the two
segments and the verb as the handler passed them (`server.py` 68-69). -/
theorem step_authLog_resolve (authz : AuthCallback) (env : Backend) (req : Request)
    (s : HandlerState) :
    (step authz env req s Event.authResolved).authLog =
      s.authLog ++ [(req.authorization, req.pfx, req.file_path, req.method)] := by
  simp only [step]
  split
  · rfl
  · split <;> rfl

theorem foldl_authLog_other (authz : AuthCallback) (env : Backend) (req : Request)
    (es : List Event) (s : HandlerState) (h : Event.authResolved ∉ es) :
    (List.foldl (step authz env req) s es).authLog = s.authLog := by
  induction es generalizing s with
  | nil => rfl
  | cons e es ih =>
      have he : e ≠ Event.authResolved := fun hh => h (hh ▸ List.mem_cons_self e es)
      rw [List.foldl_cons, ih _ (fun hm => h (List.mem_cons_of_mem e hm)),
        step_authLog_other authz env req s e he]

/-- In the canonical lifecycle the auth callback is consulted exactly once,
with the forwarded header, the two route segments and the verb. -/
theorem runRequest_authLog (authz : AuthCallback) (env : Backend) (req : Request)
    (chunks : List (List Byte)) (closedEarly : Bool) :
    (runRequest authz env req chunks closedEarly).authLog =
      [(req.authorization, req.pfx, req.file_path, req.method)] := by
  unfold runRequest run requestEvents
  rw [List.foldl_append, List.foldl_append]
  rw [foldl_authLog_other authz env req _ _ (by cases closedEarly <;> simp)]
  rw [foldl_authLog_other authz env req _ _ (by simp)]
  rw [show List.foldl (step authz env req) initState [.prepareStart, .authResolved] =
    step authz env req (step authz env req initState .prepareStart) .authResolved
    from rfl, step_authLog_resolve]
  rfl

/-! ### The claims -/

/-- C2: whenever the auth callback resolves to anything other than true, the
handler's final response is a finished 403 with no payload body, no
transient file was ever created (for any verb) and no backend call was made;
and — last conjunct — any body chunk that arrives while `self.auth` is not
`True` is answered by the bare `send_error()` (a generic 500 on a response
that is not already finished) with the temp handle untouched and nothing
written. -/
theorem unauthorized_request_rejected (authz : AuthCallback) (env : Backend)
    (req : Request) (chunks : List (List Byte)) (closedEarly : Bool)
    (hden : authz req.authorization req.pfx req.file_path req.method = false) :
    (runRequest authz env req chunks closedEarly).resp = ⟨some 403, none, [], true⟩ ∧
    (runRequest authz env req chunks closedEarly).temp = none ∧
    (runRequest authz env req chunks closedEarly).tempOnDisk = false ∧
    (runRequest authz env req chunks closedEarly).calls = [] ∧
    (∀ s : HandlerState, ∀ c : List Byte, s.auth ≠ some true →
      step authz env req s (.dataReceived c) = { s with resp := sendError s.resp 500 }) := by
  rw [rejected_run authz env req chunks closedEarly hden]
  refine ⟨rfl, rfl, rfl, rfl, ?_⟩
  intro s c hc
  simp only [step, if_pos hc]

/-- C2 witness: a denying auth callback on a concrete POST with one body
chunk. -/
theorem unauthorized_request_rejected_witness :
    (runRequest (fun _ _ _ _ => false)
        ⟨fun _ => .ok ⟨"e1", none⟩, fun _ => .ok none, fun _ => .ok (),
          fun _ => [], "tmp1"⟩
        ⟨"POST", "test", "doc1", some "Token bad", none⟩ [[104, 105]] false).resp =
      ⟨some 403, none, [], true⟩ := by
  exact (unauthorized_request_rejected (fun _ _ _ _ => false)
    ⟨fun _ => .ok ⟨"e1", none⟩, fun _ => .ok none, fun _ => .ok (),
      fun _ => [], "tmp1"⟩
    ⟨"POST", "test", "doc1", some "Token bad", none⟩ [[104, 105]] false rfl).1

/-- C10: a body chunk delivered while `self.auth` is not `True` makes
`data_received` send the generic error and return: the temp handle is not
touched (so the non-existent handle of an unauthorized POST is never
dereferenced — it is only created once authorization resolves true) and no
`AttributeError` can occur; consequently a whole run with a denying
authorizer never creates a temp file and never crashes. -/
theorem unauthorized_chunk_no_temp_access (authz : AuthCallback) (env : Backend)
    (req : Request) (s : HandlerState) (c : List Byte)
    (h : s.auth ≠ some true) :
    step authz env req s (.dataReceived c) = { s with resp := sendError s.resp 500 } ∧
    (step authz env req s (.dataReceived c)).temp = s.temp ∧
    (step authz env req s (.dataReceived c)).crashed = s.crashed ∧
    (authz req.authorization req.pfx req.file_path req.method = false →
      ∀ chunks : List (List Byte), ∀ closedEarly : Bool,
        (runRequest authz env req chunks closedEarly).temp = none ∧
        (runRequest authz env req chunks closedEarly).crashed = false) := by
  have h1 : step authz env req s (.dataReceived c) =
      { s with resp := sendError s.resp 500 } := by
    simp only [step, if_pos h]
  refine ⟨h1, by rw [h1], by rw [h1], ?_⟩
  intro hden chunks closedEarly
  rw [rejected_run authz env req chunks closedEarly hden]
  exact ⟨rfl, rfl⟩

/-- C10 witness: the freshly initialized handler (auth still `None`)
receiving a chunk, under a denying authorizer. -/
theorem unauthorized_chunk_no_temp_access_witness :
    (step (fun _ _ _ _ => false)
        ⟨fun _ => .ok ⟨"e1", none⟩, fun _ => .ok none, fun _ => .ok (),
          fun _ => [], "tmp1"⟩
        ⟨"POST", "test", "doc1", none, none⟩ initState (.dataReceived [1])).temp =
      initState.temp ∧
    (runRequest (fun _ _ _ _ => false)
        ⟨fun _ => .ok ⟨"e1", none⟩, fun _ => .ok none, fun _ => .ok (),
          fun _ => [], "tmp1"⟩
        ⟨"POST", "test", "doc1", none, none⟩ [[1]] false).temp = none := by
  have h := unauthorized_chunk_no_temp_access (fun _ _ _ _ => false)
    ⟨fun _ => .ok ⟨"e1", none⟩, fun _ => .ok none, fun _ => .ok (),
      fun _ => [], "tmp1"⟩
    ⟨"POST", "test", "doc1", none, none⟩ initState [1] (by simp [initState])
  exact ⟨h.2.1, (h.2.2.2 rfl [[1]] false).1⟩

/-- C7: with the remote strategy active the outbound authorization request
uses the incoming verb as its HTTP method, targets
`{accountingserver}/api/v0/auth/{prefix}/{path}`, forwards the caller's
credential unchanged in the `Authorization` header (`none`, a missing
header, is passed through as such) and carries an empty body exactly for
POST and no body otherwise; and the handler hands the auth callback exactly
the incoming header, segments and verb, once. -/
theorem outbound_auth_request_shape (opts : Options) (auth : Option String)
    (p f a : String) (authz : AuthCallback) (env : Backend) (req : Request)
    (chunks : List (List Byte)) (closedEarly : Bool) :
    (mkAuthRequest opts auth p f a).method = a ∧
    (mkAuthRequest opts auth p f a).url =
      opts.accountingserver ++ "/api/v0/auth/" ++ p ++ "/" ++ f ∧
    (mkAuthRequest opts auth p f a).authorization = auth ∧
    (mkAuthRequest opts auth p f a).body =
      (if a = "POST" then some [] else none) ∧
    (runRequest authz env req chunks closedEarly).authLog =
      [(req.authorization, req.pfx, req.file_path, req.method)] := by
  exact ⟨rfl, rfl, rfl, rfl, runRequest_authLog authz env req chunks closedEarly⟩

theorem applyActions_append (r : Response) (l1 l2 : List RespAction) :
    applyActions r (l1 ++ l2) = applyActions (applyActions r l1) l2 :=
  List.foldl_append ..

/-- Emitting a present retrieve result with a local file over a pristine
response yields exactly status 200, the ETag header, the file's bytes as
body, finished. -/
theorem get_actions_apply_file (e fn : String) (rf : String → List Byte) :
    applyActions pristineResp (get_actions ⟨e, some fn⟩ rf) =
      ⟨some 200, some e, rf fn, true⟩ := by
  simp only [get_actions]
  rw [List.singleton_append]
  show applyActions (applyAction pristineResp (.setETag e))
      ((chunksOf8192 (rf fn)).map .write ++ [.finishResp]) = _
  rw [applyActions_append, applyActions_writes]
  simp [applyActions, applyAction, chunksOf8192_flatten, pristineResp]

/-- C3: for an authorized GET the response is a function of the backend's
retrieve result on `StorageObject(prefix, file_path, If-None-Match, None)`:
absent result → finished 404; present result without local file → 304 with
the ETag header and no body; present result with a local file → 200 with the
ETag header and the file's bytes, byte for byte, as body — the emission
sequence putting the ETag header before the first of the in-order 8192-byte
chunks. -/
theorem authorized_get_response (authz : AuthCallback) (env : Backend)
    (req : Request)
    (hok : authz req.authorization req.pfx req.file_path req.method = true)
    (hget : req.method = "GET") :
    (env.retrieve ⟨req.pfx, req.file_path, req.ifNoneMatch, none⟩ = .ok none →
        (runRequest authz env req [] false).resp = ⟨some 404, none, [], true⟩) ∧
    (∀ e : String,
      env.retrieve ⟨req.pfx, req.file_path, req.ifNoneMatch, none⟩ = .ok (some ⟨e, none⟩) →
        (runRequest authz env req [] false).resp = ⟨some 304, some e, [], true⟩) ∧
    (∀ e fn : String,
      env.retrieve ⟨req.pfx, req.file_path, req.ifNoneMatch, none⟩ = .ok (some ⟨e, some fn⟩) →
        (runRequest authz env req [] false).resp =
          ⟨some 200, some e, env.readFile fn, true⟩ ∧
        get_actions ⟨e, some fn⟩ env.readFile =
          .setETag e :: ((chunksOf8192 (env.readFile fn)).map .write ++ [.finishResp])) := by
  have hne : ¬ req.method = "POST" := by rw [hget]; decide
  have hmid : runMid authz env req [] =
      ⟨some true, none, false, pristineResp,
        some (.retrieveCall ⟨req.pfx, req.file_path, req.ifNoneMatch, none⟩), [],
        [(req.authorization, req.pfx, req.file_path, req.method)], false⟩ := by
    unfold runMid run
    rw [show ([Event.prepareStart, Event.authResolved] ++ List.map Event.dataReceived [] ++
        [Event.bodyComplete]) = [Event.prepareStart, Event.authResolved, Event.bodyComplete]
      from rfl,
      show List.foldl (step authz env req) initState
        [Event.prepareStart, Event.authResolved, Event.bodyComplete] =
        step authz env req (step authz env req (step authz env req initState
          .prepareStart) .authResolved) .bodyComplete from rfl,
      run_prep_auth_true authz env req hok]
    simp [step, hget, hne, pristineResp]
  rw [runRequest_eq_mid, hmid]
  refine ⟨?_, ?_, ?_⟩
  · intro hres
    simp only [step]
    rw [hres]
    rfl
  · intro e hres
    simp only [step]
    rw [hres]
    rfl
  · intro e fn hres
    refine ⟨?_, by simp [get_actions]⟩
    simp only [step]
    rw [hres]
    show (applyActions pristineResp (get_actions ⟨e, some fn⟩ env.readFile)) = _
    exact get_actions_apply_file e fn env.readFile

/-- C3 witness: a three-byte object retrieved in full. -/
theorem authorized_get_response_witness :
    (runRequest (fun _ _ _ _ => true)
        ⟨fun _ => .ok ⟨"e1", none⟩, fun _ => .ok (some ⟨"e1", some "blob"⟩),
          fun _ => .ok (), fun _ => [104, 105, 33], "tmp1"⟩
        ⟨"GET", "test", "doc1", some "Token t", none⟩ [] false).resp =
      ⟨some 200, some "e1", [104, 105, 33], true⟩ := by
  exact ((authorized_get_response (fun _ _ _ _ => true)
    ⟨fun _ => .ok ⟨"e1", none⟩, fun _ => .ok (some ⟨"e1", some "blob"⟩),
      fun _ => .ok (), fun _ => [104, 105, 33], "tmp1"⟩
    ⟨"GET", "test", "doc1", some "Token t", none⟩ rfl rfl).2.2 "e1" "blob" rfl).1

/-- C8: for an authorized POST whose backend store call succeeds with some
receipt, the handler responds with a finished 204 carrying the receipt's
etag in the `ETag` header and an empty body (`server.py` 100-106). -/
theorem authorized_post_204_etag (authz : AuthCallback) (env : Backend)
    (req : Request) (chunks : List (List Byte)) (r : Receipt)
    (hok : authz req.authorization req.pfx req.file_path req.method = true)
    (hpost : req.method = "POST")
    (hstore : env.store ⟨req.pfx, req.file_path, none, some env.tempName⟩ = .ok r) :
    (runRequest authz env req chunks false).resp = ⟨some 204, some r.etag, [], true⟩ := by
  have hmid : runMid authz env req chunks =
      ⟨some true, some ⟨env.tempName, chunks.flatten, true⟩, true, pristineResp,
        some (.storeCall ⟨req.pfx, req.file_path, none, some env.tempName⟩), [],
        [(req.authorization, req.pfx, req.file_path, req.method)], false⟩ := by
    unfold runMid run
    rw [List.foldl_append, List.foldl_append,
      show List.foldl (step authz env req) initState
        [Event.prepareStart, Event.authResolved] =
        step authz env req (step authz env req initState .prepareStart) .authResolved
      from rfl,
      run_prep_auth_true authz env req hok]
    simp only [hpost, if_pos]
    rw [foldl_chunks_write authz env req chunks _ ⟨env.tempName, [], false⟩ rfl rfl]
    simp [step, hpost, pristineResp]
  rw [runRequest_eq_mid, hmid]
  simp only [step]
  rw [hstore]
  rfl

/-- C8 witness: storing two chunks under a backend answering with etag
`"e2"`. -/
theorem authorized_post_204_etag_witness :
    (runRequest (fun _ _ _ _ => true)
        ⟨fun _ => .ok ⟨"e2", none⟩, fun _ => .ok none, fun _ => .ok (),
          fun _ => [], "tmp1"⟩
        ⟨"POST", "test", "doc1", some "Token t", none⟩ [[104], [105]] false).resp =
      ⟨some 204, some "e2", [], true⟩ := by
  exact authorized_post_204_etag (fun _ _ _ _ => true)
    ⟨fun _ => .ok ⟨"e2", none⟩, fun _ => .ok none, fun _ => .ok (),
      fun _ => [], "tmp1"⟩
    ⟨"POST", "test", "doc1", some "Token t", none⟩ [[104], [105]] ⟨"e2", none⟩
    rfl rfl rfl

/-- C9: an authorized DELETE invokes the backend delete on a `StorageObject`
whose etag and local file are both `None` (`server.py` 116) and, the
spec-modelled backend delete being total (idempotent — deleting an absent
object is not an error), answers a finished 204 with no body and no ETag;
the response is identical for any two backends whose delete accepts the
object, i.e. independent of whether the object existed. -/
theorem authorized_delete_204 (authz : AuthCallback) (env env2 : Backend)
    (req : Request)
    (hok : authz req.authorization req.pfx req.file_path req.method = true)
    (hdel : req.method = "DELETE")
    (h1 : env.delete ⟨req.pfx, req.file_path, none, none⟩ = .ok ())
    (h2 : env2.delete ⟨req.pfx, req.file_path, none, none⟩ = .ok ()) :
    (runRequest authz env req [] false).calls =
      [.deleteCall ⟨req.pfx, req.file_path, none, none⟩] ∧
    (runRequest authz env req [] false).resp = ⟨some 204, none, [], true⟩ ∧
    (runRequest authz env req [] false).resp =
      (runRequest authz env2 req [] false).resp := by
  have hne : ¬ req.method = "POST" := by rw [hdel]; decide
  have hng : ¬ req.method = "GET" := by rw [hdel]; decide
  have hmid : ∀ envx : Backend, runMid authz envx req [] =
      ⟨some true, none, false, pristineResp,
        some (.deleteCall ⟨req.pfx, req.file_path, none, none⟩), [],
        [(req.authorization, req.pfx, req.file_path, req.method)], false⟩ := by
    intro envx
    unfold runMid run
    rw [show ([Event.prepareStart, Event.authResolved] ++ List.map Event.dataReceived [] ++
        [Event.bodyComplete]) = [Event.prepareStart, Event.authResolved, Event.bodyComplete]
      from rfl,
      show List.foldl (step authz envx req) initState
        [Event.prepareStart, Event.authResolved, Event.bodyComplete] =
        step authz envx req (step authz envx req (step authz envx req initState
          .prepareStart) .authResolved) .bodyComplete from rfl,
      run_prep_auth_true authz envx req hok]
    simp [step, hdel, hne, hng, pristineResp]
  have hfin : ∀ envx : Backend,
      envx.delete ⟨req.pfx, req.file_path, none, none⟩ = .ok () →
      runRequest authz envx req [] false =
        ⟨some true, none, false, ⟨some 204, none, [], true⟩, none,
          [.deleteCall ⟨req.pfx, req.file_path, none, none⟩],
          [(req.authorization, req.pfx, req.file_path, req.method)], false⟩ := by
    intro envx hx
    rw [runRequest_eq_mid, hmid envx]
    simp only [step]
    rw [hx]
    rfl
  rw [hfin env h1, hfin env2 h2]
  exact ⟨rfl, rfl, rfl⟩

/-- C9 witness: deleting under two backends — one where the object exists,
one where it never did — produces the same 204. -/
theorem authorized_delete_204_witness :
    (runRequest (fun _ _ _ _ => true)
        ⟨fun _ => .ok ⟨"e1", none⟩, fun _ => .ok (some ⟨"e1", some "blob"⟩),
          fun _ => .ok (), fun _ => [1], "tmp1"⟩
        ⟨"DELETE", "test", "doc1", some "Token t", none⟩ [] false).resp =
      ⟨some 204, none, [], true⟩ ∧
    (runRequest (fun _ _ _ _ => true)
        ⟨fun _ => .ok ⟨"e1", none⟩, fun _ => .ok (some ⟨"e1", some "blob"⟩),
          fun _ => .ok (), fun _ => [1], "tmp1"⟩
        ⟨"DELETE", "test", "doc1", some "Token t", none⟩ [] false).resp =
      (runRequest (fun _ _ _ _ => true)
        ⟨fun _ => .ok ⟨"gone", none⟩, fun _ => .ok none, fun _ => .ok (),
          fun _ => [], "tmp2"⟩
        ⟨"DELETE", "test", "doc1", some "Token t", none⟩ [] false).resp := by
  have h := authorized_delete_204 (fun _ _ _ _ => true)
    ⟨fun _ => .ok ⟨"e1", none⟩, fun _ => .ok (some ⟨"e1", some "blob"⟩),
      fun _ => .ok (), fun _ => [1], "tmp1"⟩
    ⟨fun _ => .ok ⟨"gone", none⟩, fun _ => .ok none, fun _ => .ok (),
      fun _ => [], "tmp2"⟩
    ⟨"DELETE", "test", "doc1", some "Token t", none⟩ rfl rfl rfl rfl
  exact ⟨h.2.1, h.2.2⟩

/-- Starting the verb method on a pristine response with no pending call
leaves the response pristine (the backend call is merely issued), except for
an unsupported method, which finishes the response without issuing any
call. -/
theorem step_bodyComplete_pristine (authz : AuthCallback) (env : Backend)
    (req : Request) (s : HandlerState)
    (hr : s.resp = pristineResp) (hp : s.pending = none) :
    (step authz env req s .bodyComplete).resp = pristineResp ∨
    ((step authz env req s .bodyComplete).resp.finished = true ∧
     (step authz env req s .bodyComplete).pending = none) := by
  have hfin : s.resp.finished = false := by rw [hr]; rfl
  by_cases hg : req.method = "GET"
  · left
    simp [step, hfin, hg, hr, pristineResp]
  · by_cases hpo : req.method = "POST"
    · cases htmp : s.temp with
      | some t => left; simp [step, hfin, hg, hpo, htmp, hr, pristineResp]
      | none => left; simp [step, hfin, hg, hpo, htmp, hr, pristineResp]
    · by_cases hd : req.method = "DELETE"
      · left
        simp [step, hfin, hg, hpo, hd, hr, pristineResp]
      · right
        simp [step, hfin, hg, hpo, hd, hr, sendError, pristineResp, hp]

/-- A pending retrieve call that raises settles into `send_error(500)`. -/
theorem step_backendDone_fail_retrieve (authz : AuthCallback) (env : Backend)
    (req : Request) (s : HandlerState) (obj : StorageObject)
    (hpend : s.pending = some (.retrieveCall obj))
    (herr : env.retrieve obj = .error ()) :
    (step authz env req s .backendDone).resp = sendError s.resp 500 := by
  obtain ⟨a, t, d, r, p, cl, al, cr⟩ := s
  replace hpend : p = some (.retrieveCall obj) := hpend
  subst hpend
  simp only [step]
  rw [herr]

/-- A pending store call that raises settles into `send_error(500)`. -/
theorem step_backendDone_fail_store (authz : AuthCallback) (env : Backend)
    (req : Request) (s : HandlerState) (obj : StorageObject)
    (hpend : s.pending = some (.storeCall obj))
    (herr : env.store obj = .error ()) :
    (step authz env req s .backendDone).resp = sendError s.resp 500 := by
  obtain ⟨a, t, d, r, p, cl, al, cr⟩ := s
  replace hpend : p = some (.storeCall obj) := hpend
  subst hpend
  simp only [step]
  rw [herr]

/-- A pending delete call that raises settles into `send_error(500)`. -/
theorem step_backendDone_fail_delete (authz : AuthCallback) (env : Backend)
    (req : Request) (s : HandlerState) (obj : StorageObject)
    (hpend : s.pending = some (.deleteCall obj))
    (herr : env.delete obj = .error ()) :
    (step authz env req s .backendDone).resp = sendError s.resp 500 := by
  obtain ⟨a, t, d, r, p, cl, al, cr⟩ := s
  replace hpend : p = some (.deleteCall obj) := hpend
  subst hpend
  simp only [step]
  rw [herr]

/-- C6: for every verb, the response is still pristine — no status, no
header, no body byte — while the backend call of the verb method is pending;
the full canonical run is exactly that mid state followed by the settling of
the call, so the backend call fully settles before any part of the response
is emitted; and if the pending call fails (the backend raises), the settling
step produces exactly a finished 500 with no header and no body. -/
theorem backend_settles_before_response (authz : AuthCallback) (env : Backend)
    (req : Request) (chunks : List (List Byte)) :
    ((runMid authz env req chunks).pending.isSome →
        (runMid authz env req chunks).resp = pristineResp) ∧
    (∀ obj : StorageObject,
      (runMid authz env req chunks).pending = some (.retrieveCall obj) →
      env.retrieve obj = .error () →
        (step authz env req (runMid authz env req chunks) .backendDone).resp =
          ⟨some 500, none, [], true⟩) ∧
    (∀ obj : StorageObject,
      (runMid authz env req chunks).pending = some (.storeCall obj) →
      env.store obj = .error () →
        (step authz env req (runMid authz env req chunks) .backendDone).resp =
          ⟨some 500, none, [], true⟩) ∧
    (∀ obj : StorageObject,
      (runMid authz env req chunks).pending = some (.deleteCall obj) →
      env.delete obj = .error () →
        (step authz env req (runMid authz env req chunks) .backendDone).resp =
          ⟨some 500, none, [], true⟩) ∧
    runRequest authz env req chunks false =
      step authz env req (runMid authz env req chunks) .backendDone := by
  have hkey : (runMid authz env req chunks).resp = pristineResp ∨
      ((runMid authz env req chunks).resp.finished = true ∧
       (runMid authz env req chunks).pending = none) := by
    by_cases hb : authz req.authorization req.pfx req.file_path req.method = true
    · have hdec : runMid authz env req chunks =
          step authz env req (List.foldl (step authz env req)
            (⟨some true,
              (if req.method = "POST" then some ⟨env.tempName, [], false⟩ else none),
              (if req.method = "POST" then true else false), pristineResp, none, [],
              [(req.authorization, req.pfx, req.file_path, req.method)], false⟩ :
              HandlerState)
            (chunks.map .dataReceived)) .bodyComplete := by
        unfold runMid run
        rw [List.foldl_append, List.foldl_append,
          show List.foldl (step authz env req) initState
            [Event.prepareStart, Event.authResolved] =
            step authz env req (step authz env req initState .prepareStart)
              .authResolved from rfl,
          run_prep_auth_true authz env req hb]
        rfl
      have hpres := foldl_chunks_preserve authz env req chunks
        (⟨some true,
          (if req.method = "POST" then some ⟨env.tempName, [], false⟩ else none),
          (if req.method = "POST" then true else false), pristineResp, none, [],
          [(req.authorization, req.pfx, req.file_path, req.method)], false⟩ :
          HandlerState) rfl
      rw [hdec]
      exact step_bodyComplete_pristine authz env req _ hpres.1 hpres.2.1
    · have hb' : authz req.authorization req.pfx req.file_path req.method = false := by
        revert hb
        cases authz req.authorization req.pfx req.file_path req.method <;> simp
      have hmidF : runMid authz env req chunks =
          ⟨some false, none, false, ⟨some 403, none, [], true⟩, none, [],
            [(req.authorization, req.pfx, req.file_path, req.method)], false⟩ := by
        unfold runMid run
        rw [List.foldl_append, List.foldl_append,
          show List.foldl (step authz env req) initState
            [Event.prepareStart, Event.authResolved] =
            step authz env req (step authz env req initState .prepareStart)
              .authResolved from rfl,
          run_prep_auth_false authz env req hb',
          foldl_chunks_rejected authz env req chunks _ rfl rfl]
        simp [step]
      rw [hmidF]
      exact Or.inr ⟨rfl, rfl⟩
  have hpristine : ∀ c : BackendCall,
      (runMid authz env req chunks).pending = some c →
      (runMid authz env req chunks).resp = pristineResp := by
    intro c hpend
    rcases hkey with h | ⟨-, hnone⟩
    · exact h
    · rw [hnone] at hpend
      cases hpend
  refine ⟨?_, ?_, ?_, ?_, runRequest_eq_mid authz env req chunks⟩
  · intro hpend
    rcases hp : (runMid authz env req chunks).pending with - | c
    · rw [hp] at hpend
      cases hpend
    · exact hpristine c hp
  · intro obj hpend herr
    rw [step_backendDone_fail_retrieve authz env req _ obj hpend herr,
      hpristine _ hpend]
    rfl
  · intro obj hpend herr
    rw [step_backendDone_fail_store authz env req _ obj hpend herr,
      hpristine _ hpend]
    rfl
  · intro obj hpend herr
    rw [step_backendDone_fail_delete authz env req _ obj hpend herr,
      hpristine _ hpend]
    rfl

/-- C6 witness: a GET whose backend retrieve raises — at the mid state the
response is pristine, and the settling step produces the bare 500. -/
theorem backend_settles_before_response_witness :
    (runMid (fun _ _ _ _ => true)
        ⟨fun _ => .ok ⟨"e1", none⟩, fun _ => .error (), fun _ => .ok (),
          fun _ => [], "tmp1"⟩
        ⟨"GET", "test", "doc1", some "Token t", none⟩ []).resp = pristineResp ∧
    (step (fun _ _ _ _ => true)
        ⟨fun _ => .ok ⟨"e1", none⟩, fun _ => .error (), fun _ => .ok (),
          fun _ => [], "tmp1"⟩
        ⟨"GET", "test", "doc1", some "Token t", none⟩
        (runMid (fun _ _ _ _ => true)
          ⟨fun _ => .ok ⟨"e1", none⟩, fun _ => .error (), fun _ => .ok (),
            fun _ => [], "tmp1"⟩
          ⟨"GET", "test", "doc1", some "Token t", none⟩ []) .backendDone).resp =
      ⟨some 500, none, [], true⟩ := by
  have h := backend_settles_before_response (fun _ _ _ _ => true)
    ⟨fun _ => .ok ⟨"e1", none⟩, fun _ => .error (), fun _ => .ok (),
      fun _ => [], "tmp1"⟩
    ⟨"GET", "test", "doc1", some "Token t", none⟩ []
  exact ⟨h.1 rfl, h.2.1 ⟨"test", "doc1", none, none⟩ rfl rfl⟩

/-- C4 counterexample: the path `/api/v0/files/a!/b`, whose first segment
contains `!` — a character outside `[A-Za-z0-9_-]` — indeed fails routing
before any auth or backend call, but with tornado's default 404 for an
unmatched route, not with a 403-class rejection as the claim states. -/
theorem route_bad_char_counterexample :
    (dispatch (fun _ _ _ _ => true)
        ⟨fun _ => .ok ⟨"e1", none⟩, fun _ => .ok none, fun _ => .ok (),
          fun _ => [], "tmp1"⟩
        "GET" ("/api/v0/files/a!/b".toList) none none []).resp.status = some 404 ∧
    ¬ ((dispatch (fun _ _ _ _ => true)
        ⟨fun _ => .ok ⟨"e1", none⟩, fun _ => .ok none, fun _ => .ok (),
          fun _ => [], "tmp1"⟩
        "GET" ("/api/v0/files/a!/b".toList) none none []).resp.status = some 403) ∧
    (dispatch (fun _ _ _ _ => true)
        ⟨fun _ => .ok ⟨"e1", none⟩, fun _ => .ok none, fun _ => .ok (),
          fun _ => [], "tmp1"⟩
        "GET" ("/api/v0/files/a!/b".toList) none none []).calls = [] ∧
    (dispatch (fun _ _ _ _ => true)
        ⟨fun _ => .ok ⟨"e1", none⟩, fun _ => .ok none, fun _ => .ok (),
          fun _ => [], "tmp1"⟩
        "GET" ("/api/v0/files/a!/b".toList) none none []).authLog = [] := by
  decide

/-- C4 (amended): both route segments are accepted only if they match
`[A-Za-z0-9_-]+` (over ASCII); a path whose segments violate that pattern
fails routing with tornado's default 404 — not 403 — before any
authorization or backend call is made. -/
theorem route_pattern_amended (authz : AuthCallback) (env : Backend)
    (method : String) (authHdr inm : Option String) (chunks : List (List Byte))
    (p f : List Char) (hbad : (segOK p && segOK f) = false) :
    (∀ path q g : List Char, routeMatch path = some (q, g) →
        segOK q = true ∧ segOK g = true) ∧
    routeMatch (filesPath p f) = none ∧
    (dispatch authz env method (filesPath p f) authHdr inm chunks).resp.status =
      some 404 ∧
    (dispatch authz env method (filesPath p f) authHdr inm chunks).calls = [] ∧
    (dispatch authz env method (filesPath p f) authHdr inm chunks).authLog = [] := by
  have hnone := routeMatch_filesPath_bad p f hbad
  refine ⟨fun path q g h => routeMatch_sound path q g h, hnone, ?_, ?_, ?_⟩
  · simp only [dispatch]
    rw [hnone]
  · simp only [dispatch]
    rw [hnone]
    rfl
  · simp only [dispatch]
    rw [hnone]
    rfl

/-- C4 amended witness: the segment pair `a!`, `b`. -/
theorem route_pattern_amended_witness :
    (dispatch (fun _ _ _ _ => true)
        ⟨fun _ => .ok ⟨"e1", none⟩, fun _ => .ok none, fun _ => .ok (),
          fun _ => [], "tmp1"⟩
        "GET" (filesPath ['a', '!'] ['b']) none none []).resp.status = some 404 := by
  exact (route_pattern_amended (fun _ _ _ _ => true)
    ⟨fun _ => .ok ⟨"e1", none⟩, fun _ => .ok none, fun _ => .ok (),
      fun _ => [], "tmp1"⟩
    "GET" none none [] ['a', '!'] ['b'] (by decide)).2.2.1

/-- C5 (failing input): an authorized POST that is abandoned — the
connection closes after one body chunk, before the body completes.
`FileHandler` defines no `on_connection_close`/`on_finish` cleanup and never
unlinks the `NamedTemporaryFile(delete=False)`, so at the end of the request
the transient file is still on disk (and its handle not even closed), and it
was never handed off to any backend call: the transient file outlives its
request. -/
theorem abandoned_post_leaks_tempfile :
    (runRequest (fun _ _ _ _ => true)
        ⟨fun _ => .ok ⟨"e1", none⟩, fun _ => .ok none, fun _ => .ok (),
          fun _ => [], "tmp1"⟩
        ⟨"POST", "test", "doc1", some "Token t", none⟩
        [[104, 105]] true).tempOnDisk = true ∧
    (runRequest (fun _ _ _ _ => true)
        ⟨fun _ => .ok ⟨"e1", none⟩, fun _ => .ok none, fun _ => .ok (),
          fun _ => [], "tmp1"⟩
        ⟨"POST", "test", "doc1", some "Token t", none⟩
        [[104, 105]] true).temp = some ⟨"tmp1", [104, 105], false⟩ ∧
    (runRequest (fun _ _ _ _ => true)
        ⟨fun _ => .ok ⟨"e1", none⟩, fun _ => .ok none, fun _ => .ok (),
          fun _ => [], "tmp1"⟩
        ⟨"POST", "test", "doc1", some "Token t", none⟩
        [[104, 105]] true).calls = [] := by
  decide

end Blockserver
